import Mathlib

/-!
Verification of the rotation-enhanced book-identification engine of
`app_3.py` (danny1999999999/book_scanner).

The development shallowly embeds the core of
`identify_book_with_rotation_enhanced` (lines 490-681), the style
heuristic `detect_cartoon_book_simple` (lines 376-400), and the
result-shaping code, over mathematical reals.  Embedding vectors are
`List ℝ`; numpy reductions (`np.dot`, `np.linalg.norm`, `np.mean`,
`np.var`) are spelled out as list/`Finset` arithmetic; the CLIP model
plus the PIL rotation step is an opaque function from rotation angle to
query embedding, exactly as the spec treats EmbeddingProvider and
RotationAugmentor; database reads are fully materialised lists.
Floating point is idealised as ℝ (so claims about NaN become claims
about the guarding structure of the definitions).
-/

namespace BookScanner

/-! ## Similarity scoring (lines 560-577 of `app_3.py`) -/

/-- np.dot on two 1-D float vectors: sum of pointwise products.
(numpy raises on mismatched lengths; the engine only ever compares
equal-dimension CLIP vectors, and theorems carry the length hypothesis
where it matters.) -/
noncomputable def dotL (u v : List ℝ) : ℝ := (List.zipWith (· * ·) u v).sum

/-- np.linalg.norm: Euclidean norm, the square root of the sum of squares. -/
noncomputable def normL (u : List ℝ) : ℝ := Real.sqrt (dotL u u)

/-- Pointwise vector difference, `emb - db_emb`. -/
noncomputable def subL (u v : List ℝ) : List ℝ := List.zipWith (· - ·) u v

/-- Lines 563-565 (also duplicated at 575-577):
`dot / norm if norm else 0.0` where `norm` is the product of the two
Euclidean norms.  Python truthiness of a float: the guard fires exactly
when the product is zero. -/
noncomputable def cosSim (u v : List ℝ) : ℝ :=
  if normL u * normL v = 0 then 0 else dotL u v / (normL u * normL v)

/-- Lines 568-569: `euclidean_sim = 1 / (1 + euclidean_dist)` with
`euclidean_dist = np.linalg.norm(emb - db_emb)`. -/
noncomputable def euclideanSim (u v : List ℝ) : ℝ :=
  1 / (1 + normL (subL u v))

/-- Lines 561-577: the style-adaptive score.  Cartoon profile fuses
cosine similarity and inverse euclidean distance with weights 0.7/0.3;
the standard profile is plain (guarded) cosine similarity. -/
noncomputable def simScore (isCartoon : Bool) (emb dbEmb : List ℝ) : ℝ :=
  if isCartoon then 0.7 * cosSim emb dbEmb + 0.3 * euclideanSim emb dbEmb
  else cosSim emb dbEmb

/-! ## Style-dependent thresholds (lines 538-547) -/

def HIGH_CONFIDENCE_THRESHOLD (isCartoon : Bool) : ℝ :=
  if isCartoon then 0.75 else 0.70

def LOW_CONFIDENCE_THRESHOLD (isCartoon : Bool) : ℝ :=
  if isCartoon then 0.60 else 0.55

def MIN_GAP_REQUIRED (isCartoon : Bool) : ℝ :=
  if isCartoon then 0.12 else 0.08

/-! ## The rotation-by-candidate scan (lines 549-582) -/

/-- Running best of the scan, `best = dict(book_id=None, score=-1.0, rotation=0)`.
`book_id = none` models Python `None`. -/
structure Best where
  book_id : Option ℕ
  score : ℝ
  rotation : ℕ

/-- Line 550: initial sentinel state. -/
noncomputable def initBest : Best := { book_id := none, score := -1, rotation := 0 }

/-- One `(rotation, candidate)` step of the scan: the computed score is
appended to `all_scores`, and the running best is replaced only on a
strictly greater score (line 581, `if score > best["score"]`). -/
noncomputable def selStep (st : Best × List ℝ) (t : ℕ × ℕ × ℝ) : Best × List ℝ :=
  (if t.2.2 > st.1.score then { book_id := some t.2.1, score := t.2.2, rotation := t.1 }
   else st.1,
   st.2 ++ [t.2.2])

/-- Folding `selStep` over a list of `(angle, book_id, score)` triples. -/
noncomputable def selFold (st : Best × List ℝ) (ts : List (ℕ × ℕ × ℝ)) : Best × List ℝ :=
  ts.foldl selStep st

/-- Lines 559-582, the inner loop: iterate the store's candidates for one
rotation angle with its query embedding `emb`. -/
noncomputable def scanCandidates (isCartoon : Bool) (angle : ℕ) (emb : List ℝ)
    (dbItems : List (ℕ × List ℝ)) (st : Best × List ℝ) : Best × List ℝ :=
  dbItems.foldl
    (fun st c =>
      (if simScore isCartoon emb c.2 > st.1.score then
        { book_id := some c.1, score := simScore isCartoon emb c.2, rotation := angle }
       else st.1,
       st.2 ++ [simScore isCartoon emb c.2])) st

/-- Line 553: the fixed rotation order. -/
def rotationAngles : List ℕ := [0, 90, 180, 270]

/-- Lines 549-582, the full 4×N scan.  `rotEmb` is the opaque composite
of PIL `rotate(angle, expand=True)` and CLIP feature extraction: one
query embedding per rotation angle. -/
noncomputable def scanRotations (isCartoon : Bool) (rotEmb : ℕ → List ℝ)
    (dbItems : List (ℕ × List ℝ)) : Best × List ℝ :=
  rotationAngles.foldl
    (fun st a => scanCandidates isCartoon a (rotEmb a) dbItems st)
    (initBest, [])

/-- The scanned `(angle, book_id, score)` triples in iteration order
(rotation order, then store order): the flattened view of the two nested
loops. -/
noncomputable def scanTriples (isCartoon : Bool) (rotEmb : ℕ → List ℝ)
    (dbItems : List (ℕ × List ℝ)) : List (ℕ × ℕ × ℝ) :=
  rotationAngles.flatMap
    (fun a => dbItems.map (fun c => (a, c.1, simScore isCartoon (rotEmb a) c.2)))

/-! ## Score-distribution analysis (lines 587-590) -/

/-- Python `max(all_scores)`.  `max` of an empty list raises in Python;
the code only evaluates it under the `if all_scores:` guard, so the
value at `[]` is an arbitrary default (0). -/
noncomputable def listMax : List ℝ → ℝ
  | [] => 0
  | x :: xs => xs.foldl max x

/-- Python `sorted(all_scores, reverse=True)`: descending sort. -/
noncomputable def sortedDesc (l : List ℝ) : List ℝ :=
  l.insertionSort (· ≥ ·)

/-- Line 589: `second_max = sorted(all_scores, reverse=True)[1] if
len(all_scores) > 1 else 0`. -/
noncomputable def secondMax (l : List ℝ) : ℝ :=
  if 1 < l.length then (sortedDesc l).getD 1 0 else 0

/-- Line 590: `score_gap = max_score - second_max`.  When `all_scores`
is empty the code never computes a gap; downstream reporting substitutes
0 for the missing value (the `if score_gap in locals() else 0` fallback
at lines 643 and 666), and the chosen defaults make this definition
yield 0 there as well. -/
noncomputable def scoreGap (l : List ℝ) : ℝ := listMax l - secondMax l

/-! ## Confidence classification (lines 595-610) -/

/-- The four values of `result_type`. -/
inductive ResultType where
  | high_confidence
  | medium_confidence
  | low_confidence_similar
  | unknown_book
  deriving DecidableEq, Repr

/-- Python truthiness of `best["book_id"]`: `None` and `0` are falsy. -/
def bidTruthy : Option ℕ → Bool
  | none => false
  | some i => i != 0

/-- Lines 587-610: gap analysis and the threshold cascade.  Each of the
three positive branches also requires a truthy `best["book_id"]`
(lines 596, 599, 602). -/
noncomputable def classifyScores (isCartoon : Bool) (best : Best)
    (allScores : List ℝ) : ResultType :=
  if allScores = [] then ResultType.unknown_book
  else if bidTruthy best.book_id ∧ HIGH_CONFIDENCE_THRESHOLD isCartoon ≤ best.score ∧
      MIN_GAP_REQUIRED isCartoon ≤ scoreGap allScores then ResultType.high_confidence
  else if bidTruthy best.book_id ∧ LOW_CONFIDENCE_THRESHOLD isCartoon ≤ best.score ∧
      MIN_GAP_REQUIRED isCartoon ≤ scoreGap allScores then ResultType.medium_confidence
  else if bidTruthy best.book_id ∧ LOW_CONFIDENCE_THRESHOLD isCartoon ≤ best.score then
    ResultType.low_confidence_similar
  else ResultType.unknown_book

/-- Modelled from the spec (§4.5 Step 3, quoted by claim C1): the
five-rule first-match-wins cascade over the best score, the gap and the
style flag alone.  Kept separate from `classifyScores` so the code's
classifier can be compared against it. -/
noncomputable def specClassifyCascade (hasCandidates : Bool) (s g : ℝ)
    (isCartoon : Bool) : ResultType :=
  if hasCandidates = false then ResultType.unknown_book
  else if HIGH_CONFIDENCE_THRESHOLD isCartoon ≤ s ∧ MIN_GAP_REQUIRED isCartoon ≤ g then
    ResultType.high_confidence
  else if LOW_CONFIDENCE_THRESHOLD isCartoon ≤ s ∧ MIN_GAP_REQUIRED isCartoon ≤ g then
    ResultType.medium_confidence
  else if LOW_CONFIDENCE_THRESHOLD isCartoon ≤ s then ResultType.low_confidence_similar
  else ResultType.unknown_book

/-! ## Result building (lines 612-673) -/

/-- A row of the `books` table as read at lines 625/651
(`SELECT title, isbn, url FROM books WHERE id = %s`); `isbn` and `url`
are nullable columns, defaulted to `""` by `row['isbn'] or ""`. -/
structure BookRow where
  title : String
  isbn : Option String
  url : Option String
  deriving Repr

/-- Lookup of the winning identifier in the `books` table. -/
def lookupBook (books : List (ℕ × BookRow)) (bid : ℕ) : Option BookRow :=
  (books.find? (fun p => p.1 == bid)).map (fun p => p.2)

/-- Python `round(x, 2)` applied to percentages.  Mathlib `round` is
half-up where Python is half-even; they agree except at exact
midpoints, which no claim touches. -/
noncomputable def pyRound2 (x : ℝ) : ℝ := (round (x * 100) : ℤ) / 100

/-- The observable outcomes of `identify_book_with_rotation_enhanced`.
`err msg` is the `return {}, msg` convention (the caller at lines
894-909 maps a falsy first component to a failure response carrying
`msg`); the other three constructors are the non-empty result
dictionaries returned with an empty error string. -/
inductive IdentifyResult where
  | err (msg : String)
  | unknownBook (best_match_score : ℝ) (cartoon_detected : Bool)
  | uncertainMatch (id : ℕ) (title isbn url : String) (similarity_score : ℝ)
      (rotation_angle : ℕ) (score_gap gap_required : ℝ) (cartoon_detected : Bool)
  | confirmedMatch (id : ℕ) (title isbn url : String) (similarity_score : ℝ)
      (rotation_angle : ℕ) (high : Bool) (score_gap : ℝ) (cartoon_detected : Bool)

/-- True exactly on the unknown-book outcome (the dictionary built at
lines 613-621, which offers the register-as-new-book action). -/
def isUnknownBookResult : IdentifyResult → Bool
  | IdentifyResult.unknownBook _ _ => true
  | _ => false

/-- True exactly on the `return {}, msg` error convention. -/
def isErrResult : IdentifyResult → Bool
  | IdentifyResult.err _ => true
  | _ => false

/-- Lines 535-673 of `identify_book_with_rotation_enhanced`: everything
after the image has been decoded, the style flag computed and the
embedding store materialised.  (CLIP initialisation, file reading and
the surrounding try/except are outside the matching engine.)
Line 535-536: an empty store returns the empty dict with the message
`資料庫中沒有書籍記錄` — the error convention — before any scan or
classification.  Line 673 is reached exactly when a match tier was
classified but the winning id has no row in `books`. -/
noncomputable def identify_book_with_rotation_enhanced (isCartoon : Bool)
    (rotEmb : ℕ → List ℝ) (dbItems : List (ℕ × List ℝ))
    (books : List (ℕ × BookRow)) : IdentifyResult :=
  if dbItems = [] then IdentifyResult.err "資料庫中沒有書籍記錄"
  else if classifyScores isCartoon (scanRotations isCartoon rotEmb dbItems).1
      (scanRotations isCartoon rotEmb dbItems).2 = ResultType.unknown_book then
    IdentifyResult.unknownBook
      (pyRound2 ((scanRotations isCartoon rotEmb dbItems).1.score * 100)) isCartoon
  else
    match (scanRotations isCartoon rotEmb dbItems).1.book_id with
    | none => IdentifyResult.err "未找到匹配的書籍"
    | some bid =>
      match lookupBook books bid with
      | none => IdentifyResult.err "未找到匹配的書籍"
      | some row =>
        if classifyScores isCartoon (scanRotations isCartoon rotEmb dbItems).1
            (scanRotations isCartoon rotEmb dbItems).2 =
            ResultType.low_confidence_similar then
          IdentifyResult.uncertainMatch bid row.title (row.isbn.getD "")
            (row.url.getD "")
            (pyRound2 ((scanRotations isCartoon rotEmb dbItems).1.score * 100))
            (scanRotations isCartoon rotEmb dbItems).1.rotation
            (pyRound2 (scoreGap (scanRotations isCartoon rotEmb dbItems).2 * 100))
            (pyRound2 (MIN_GAP_REQUIRED isCartoon * 100)) isCartoon
        else
          IdentifyResult.confirmedMatch bid row.title (row.isbn.getD "")
            (row.url.getD "")
            (pyRound2 ((scanRotations isCartoon rotEmb dbItems).1.score * 100))
            (scanRotations isCartoon rotEmb dbItems).1.rotation
            (classifyScores isCartoon (scanRotations isCartoon rotEmb dbItems).1
              (scanRotations isCartoon rotEmb dbItems).2 = ResultType.high_confidence)
            (pyRound2 (scoreGap (scanRotations isCartoon rotEmb dbItems).2 * 100))
            isCartoon

/-! ## Style detection, `detect_cartoon_book_simple` (lines 376-400) -/

/-- Mean of one colour channel over all pixels (an image is its pixel
multiset of RGB triples; numpy's 2-D mean does not depend on the row
structure). -/
noncomputable def channelMean (img : List (ℝ × ℝ × ℝ)) (f : ℝ × ℝ × ℝ → ℝ) : ℝ :=
  (img.map f).sum / img.length

/-- np.var of three scalars: population variance of the three channel
means. -/
noncomputable def var3 (a b c : ℝ) : ℝ :=
  ((a - (a + b + c) / 3) ^ 2 + (b - (a + b + c) / 3) ^ 2 +
    (c - (a + b + c) / 3) ^ 2) / 3

/-- Line 388: `color_variance = np.var([r_mean, g_mean, b_mean])`. -/
noncomputable def colorVariance (img : List (ℝ × ℝ × ℝ)) : ℝ :=
  var3 (channelMean img (fun p => p.1)) (channelMean img (fun p => p.2.1))
    (channelMean img (fun p => p.2.2))

/-- Lines 376-400.  A total Bool-valued function: the classifier never
raises.  On a degenerate image with no pixels numpy's means are NaN, the
comparison `NaN > 500` is False, and any other internal failure lands in
the `except` branch returning False (lines 398-400); both are modelled
by the empty-image branch. -/
noncomputable def detect_cartoon_book_simple (img : List (ℝ × ℝ × ℝ)) : Bool :=
  if img = [] then false
  else if 500 < colorVariance img then true else false

end BookScanner

namespace BookScanner

/-! ## Elementary facts about the selection fold -/

lemma selFold_nil (st : Best × List ℝ) : selFold st [] = st := rfl

lemma selFold_cons (st : Best × List ℝ) (t : ℕ × ℕ × ℝ) (ts : List (ℕ × ℕ × ℝ)) :
    selFold st (t :: ts) = selFold (selStep st t) ts := rfl

lemma selFold_append (st : Best × List ℝ) (l1 l2 : List (ℕ × ℕ × ℝ)) :
    selFold st (l1 ++ l2) = selFold (selFold st l1) l2 := by
  unfold selFold
  rw [List.foldl_append]

lemma selStep_fst_score (st : Best × List ℝ) (t : ℕ × ℕ × ℝ) :
    (selStep st t).1.score = max st.1.score t.2.2 := by
  unfold selStep
  rcases lt_or_le st.1.score t.2.2 with h | h
  · rw [if_pos h, max_eq_right h.le]
  · rw [if_neg (not_lt.mpr h), max_eq_left h]

lemma scanCandidates_eq_selFold (c : Bool) (a : ℕ) (e : List ℝ)
    (db : List (ℕ × List ℝ)) (st : Best × List ℝ) :
    scanCandidates c a e db st = selFold st (db.map (fun p => (a, p.1, simScore c e p.2))) := by
  unfold scanCandidates selFold selStep
  rw [List.foldl_map]

lemma scanRotations_eq_selFold (c : Bool) (f : ℕ → List ℝ) (db : List (ℕ × List ℝ)) :
    scanRotations c f db = selFold (initBest, []) (scanTriples c f db) := by
  unfold scanRotations scanTriples rotationAngles
  simp only [List.foldl_cons, List.foldl_nil, List.flatMap_cons, List.flatMap_nil,
    List.append_nil, scanCandidates_eq_selFold, selFold_append]

/-! ## The accumulated score list -/

lemma selFold_snd (ts : List (ℕ × ℕ × ℝ)) (st : Best × List ℝ) :
    (selFold st ts).2 = st.2 ++ ts.map (fun t => t.2.2) := by
  induction ts generalizing st with
  | nil => simp [selFold_nil]
  | cons t ts ih =>
    rw [selFold_cons, ih]
    unfold selStep
    simp

lemma scanRotations_snd (c : Bool) (f : ℕ → List ℝ) (db : List (ℕ × List ℝ)) :
    (scanRotations c f db).2 = (scanTriples c f db).map (fun t => t.2.2) := by
  rw [scanRotations_eq_selFold, selFold_snd]
  simp

lemma scanTriples_length (c : Bool) (f : ℕ → List ℝ) (db : List (ℕ × List ℝ)) :
    (scanTriples c f db).length = 4 * db.length := by
  unfold scanTriples rotationAngles
  simp only [List.flatMap_cons, List.flatMap_nil, List.append_nil, List.length_append,
    List.length_map]
  omega

lemma scanRotations_snd_length (c : Bool) (f : ℕ → List ℝ) (db : List (ℕ × List ℝ)) :
    (scanRotations c f db).2.length = 4 * db.length := by
  rw [scanRotations_snd, List.length_map, scanTriples_length]

/-! ## Folded maxima -/

/-- The running maximum of the scanned scores, seeded at `m`. -/
noncomputable def maxFrom (m : ℝ) (ts : List (ℕ × ℕ × ℝ)) : ℝ :=
  ts.foldl (fun m t => max m t.2.2) m

lemma maxFrom_nil (m : ℝ) : maxFrom m [] = m := rfl

lemma maxFrom_cons (m : ℝ) (t : ℕ × ℕ × ℝ) (ts : List (ℕ × ℕ × ℝ)) :
    maxFrom m (t :: ts) = maxFrom (max m t.2.2) ts := rfl

lemma le_foldl_max (l : List ℝ) (a : ℝ) : a ≤ l.foldl max a := by
  induction l generalizing a with
  | nil => exact le_refl a
  | cons x xs ih => exact le_trans (le_max_left a x) (ih (max a x))

lemma mem_le_foldl_max (l : List ℝ) (a x : ℝ) (hx : x ∈ l) : x ≤ l.foldl max a := by
  induction l generalizing a with
  | nil => cases hx
  | cons y ys ih =>
    rcases List.mem_cons.mp hx with h | h
    · subst h
      exact le_trans (le_max_right a x) (le_foldl_max ys (max a x))
    · exact ih (max a y) h

lemma foldl_max_le (l : List ℝ) (a b : ℝ) (ha : a ≤ b) (h : ∀ x ∈ l, x ≤ b) :
    l.foldl max a ≤ b := by
  induction l generalizing a with
  | nil => exact ha
  | cons x xs ih =>
    exact ih (max a x) (max_le ha (h x (List.mem_cons_self x xs)))
      (fun y hy => h y (List.mem_cons_of_mem x hy))

lemma foldl_max_mem (l : List ℝ) (a : ℝ) : l.foldl max a = a ∨ l.foldl max a ∈ l := by
  induction l generalizing a with
  | nil => exact Or.inl rfl
  | cons x xs ih =>
    rcases ih (max a x) with h | h
    · rcases max_choice a x with hm | hm
      · exact Or.inl (by rw [List.foldl_cons, h, hm])
      · exact Or.inr (by rw [List.foldl_cons, h, hm]; exact List.mem_cons_self x xs)
    · exact Or.inr (List.mem_cons_of_mem x h)

lemma foldl_max_shift (l : List ℝ) (a b : ℝ) :
    l.foldl max (max a b) = max a (l.foldl max b) := by
  induction l generalizing a b with
  | nil => rfl
  | cons c l ih =>
    rw [List.foldl_cons, List.foldl_cons, max_assoc, ih]

lemma le_maxFrom (m : ℝ) (ts : List (ℕ × ℕ × ℝ)) : m ≤ maxFrom m ts := by
  unfold maxFrom
  rw [show (fun m (t : ℕ × ℕ × ℝ) => max m t.2.2) = fun m t => max m ((fun s => s.2.2) t) from rfl,
    ← List.foldl_map]
  exact le_foldl_max _ m

lemma mem_le_maxFrom (m : ℝ) (ts : List (ℕ × ℕ × ℝ)) (t : ℕ × ℕ × ℝ) (ht : t ∈ ts) :
    t.2.2 ≤ maxFrom m ts := by
  unfold maxFrom
  rw [show (fun m (t : ℕ × ℕ × ℝ) => max m t.2.2) = fun m t => max m ((fun s => s.2.2) t) from rfl,
    ← List.foldl_map]
  exact mem_le_foldl_max _ m _ (List.mem_map_of_mem _ ht)

/-! ## What the fold's best is -/

lemma selFold_fst_score (ts : List (ℕ × ℕ × ℝ)) (st : Best × List ℝ) :
    (selFold st ts).1.score = maxFrom st.1.score ts := by
  induction ts generalizing st with
  | nil => rfl
  | cons t ts ih =>
    rw [selFold_cons, maxFrom_cons, ih, selStep_fst_score]

lemma selFold_fst_of_le (ts : List (ℕ × ℕ × ℝ)) (st : Best × List ℝ)
    (h : ∀ t ∈ ts, t.2.2 ≤ st.1.score) : (selFold st ts).1 = st.1 := by
  induction ts generalizing st with
  | nil => rfl
  | cons t ts ih =>
    rw [selFold_cons]
    have hts : selStep st t = (st.1, st.2 ++ [t.2.2]) := by
      unfold selStep
      rw [if_neg (not_lt.mpr (h t (List.mem_cons_self t ts)))]
    rw [hts]
    exact ih _ (fun s hs => h s (List.mem_cons_of_mem t hs))

lemma selFold_fst_cases (ts : List (ℕ × ℕ × ℝ)) (st : Best × List ℝ) :
    (selFold st ts).1 = st.1 ∨
      ∃ t ∈ ts, (selFold st ts).1 =
        { book_id := some t.2.1, score := t.2.2, rotation := t.1 } := by
  induction ts generalizing st with
  | nil => exact Or.inl rfl
  | cons t ts ih =>
    rw [selFold_cons]
    rcases ih (selStep st t) with h | ⟨u, hu, h⟩
    · rw [h]
      unfold selStep
      rcases lt_or_le st.1.score t.2.2 with hc | hc
      · exact Or.inr ⟨t, List.mem_cons_self t ts, by rw [if_pos hc]⟩
      · exact Or.inl (by rw [if_neg (not_lt.mpr hc)])
    · exact Or.inr ⟨u, List.mem_cons_of_mem t hu, h⟩

end BookScanner

namespace BookScanner

/-! ## The first triple attaining a given score -/

/-- First element of the scan order whose score equals `M`. -/
noncomputable def firstAtMax (M : ℝ) : List (ℕ × ℕ × ℝ) → Option (ℕ × ℕ × ℝ)
  | [] => none
  | t :: ts => if t.2.2 = M then some t else firstAtMax M ts

lemma firstAtMax_decomp (M : ℝ) (ts : List (ℕ × ℕ × ℝ)) (t : ℕ × ℕ × ℝ)
    (h : firstAtMax M ts = some t) :
    t.2.2 = M ∧ ∃ pre post, ts = pre ++ t :: post ∧ ∀ s ∈ pre, s.2.2 ≠ M := by
  induction ts with
  | nil => cases h
  | cons u ts ih =>
    unfold firstAtMax at h
    by_cases hu : u.2.2 = M
    · rw [if_pos hu] at h
      cases h
      exact ⟨hu, [], ts, rfl, by simp⟩
    · rw [if_neg hu] at h
      obtain ⟨hM, pre, post, hsplit, hpre⟩ := ih h
      refine ⟨hM, u :: pre, post, by rw [hsplit]; rfl, ?_⟩
      intro s hs
      rcases List.mem_cons.mp hs with h1 | h1
      · subst h1; exact hu
      · exact hpre s h1

lemma firstAtMax_mem (M : ℝ) (ts : List (ℕ × ℕ × ℝ)) (t : ℕ × ℕ × ℝ)
    (h : firstAtMax M ts = some t) : t ∈ ts := by
  obtain ⟨_, pre, post, hsplit, _⟩ := firstAtMax_decomp M ts t h
  rw [hsplit]
  exact List.mem_append_right pre (List.mem_cons_self t post)

/-- Core invariant of the scan: whenever some scanned score strictly
exceeds the seed, the fold's final best is exactly the first triple
attaining the running maximum. -/
lemma selFold_first_at_max (ts : List (ℕ × ℕ × ℝ)) (st : Best × List ℝ)
    (h : st.1.score < maxFrom st.1.score ts) :
    ∃ t, firstAtMax (maxFrom st.1.score ts) ts = some t ∧
      (selFold st ts).1 = { book_id := some t.2.1, score := t.2.2, rotation := t.1 } := by
  induction ts generalizing st with
  | nil => exact absurd h (lt_irrefl _)
  | cons t ts ih =>
    rw [maxFrom_cons] at h ⊢
    by_cases hc : t.2.2 = maxFrom (max st.1.score t.2.2) ts
    · refine ⟨t, ?_, ?_⟩
      · unfold firstAtMax
        rw [if_pos hc]
      · rw [selFold_cons]
        have hup : st.1.score < t.2.2 := by
          by_contra hle
          push_neg at hle
          rw [max_eq_left hle] at h hc
          exact absurd (hc ▸ h) (not_lt.mpr hle)
        have hstep : (selStep st t).1 =
            { book_id := some t.2.1, score := t.2.2, rotation := t.1 } := by
          unfold selStep
          rw [if_pos hup]
        have hrest : ∀ s ∈ ts, s.2.2 ≤ (selStep st t).1.score := by
          intro s hs
          rw [hstep]
          exact hc ▸ mem_le_maxFrom _ ts s hs
        rw [selFold_fst_of_le ts (selStep st t) hrest, hstep]
    · have hscore : (selStep st t).1.score = max st.1.score t.2.2 := selStep_fst_score st t
      have hm2 : max st.1.score t.2.2 < maxFrom (max st.1.score t.2.2) ts := by
        rcases max_choice st.1.score t.2.2 with hm | hm
        · rw [hm] at h ⊢
          exact h
        · rw [hm] at hc ⊢
          exact lt_of_le_of_ne (le_maxFrom _ _) hc
      have hlt : (selStep st t).1.score < maxFrom ((selStep st t).1.score) ts := by
        rw [hscore]
        exact hm2
      obtain ⟨u, hu1, hu2⟩ := ih (selStep st t) hlt
      rw [hscore] at hu1
      refine ⟨u, ?_, ?_⟩
      · unfold firstAtMax
        rw [if_neg hc]
        exact hu1
      · rw [selFold_cons]
        exact hu2

/-! ## Python list max -/

lemma le_listMax (l : List ℝ) (x : ℝ) (hx : x ∈ l) : x ≤ listMax l := by
  cases l with
  | nil => cases hx
  | cons y ys =>
    unfold listMax
    rcases List.mem_cons.mp hx with h | h
    · subst h; exact le_foldl_max ys x
    · exact mem_le_foldl_max ys y x h

lemma listMax_mem (l : List ℝ) (h : l ≠ []) : listMax l ∈ l := by
  cases l with
  | nil => exact absurd rfl h
  | cons y ys =>
    show ys.foldl max y ∈ y :: ys
    rcases foldl_max_mem ys y with h1 | h1
    · rw [h1]; exact List.mem_cons_self y ys
    · exact List.mem_cons_of_mem y h1

lemma listMax_le (l : List ℝ) (b : ℝ) (h : l ≠ []) (hb : ∀ x ∈ l, x ≤ b) :
    listMax l ≤ b :=
  hb (listMax l) (listMax_mem l h)

lemma listMax_eq_of (l : List ℝ) (a : ℝ) (ha : a ∈ l) (hub : ∀ x ∈ l, x ≤ a) :
    listMax l = a :=
  le_antisymm (listMax_le l a (List.ne_nil_of_mem ha) hub) (le_listMax l a ha)

lemma maxFrom_eq_max_listMax (m : ℝ) (ts : List (ℕ × ℕ × ℝ)) (h : ts ≠ []) :
    maxFrom m ts = max m (listMax (ts.map (fun t => t.2.2))) := by
  unfold maxFrom
  rw [show (fun m (t : ℕ × ℕ × ℝ) => max m t.2.2) = fun m t => max m ((fun s => s.2.2) t) from rfl,
    ← List.foldl_map]
  cases hm : ts.map (fun t => t.2.2) with
  | nil => exact absurd (List.map_eq_nil_iff.mp hm) h
  | cons x xs =>
    unfold listMax
    rw [List.foldl_cons, foldl_max_shift]

end BookScanner

namespace BookScanner

open List in
lemma sortedDesc_perm (l : List ℝ) : sortedDesc l ~ l :=
  List.perm_insertionSort _ l

lemma sortedDesc_sorted (l : List ℝ) : List.Sorted (· ≥ ·) (sortedDesc l) :=
  List.sorted_insertionSort _ l

lemma sortedDesc_length (l : List ℝ) : (sortedDesc l).length = l.length :=
  (sortedDesc_perm l).length_eq

lemma sortedDesc_two (l : List ℝ) (h : 2 ≤ l.length) :
    ∃ a b t, sortedDesc l = a :: b :: t ∧ a = listMax l ∧
      b = listMax (l.erase (listMax l)) := by
  obtain ⟨a, b, t, hs⟩ : ∃ a b t, sortedDesc l = a :: b :: t := by
    have hl : 2 ≤ (sortedDesc l).length := by rw [sortedDesc_length]; exact h
    match hm : sortedDesc l with
    | [] => rw [hm] at hl; simp at hl
    | [a] => rw [hm] at hl; simp at hl
    | a :: b :: t => exact ⟨a, b, t, rfl⟩
  have hperm : List.Perm (a :: b :: t) l := hs ▸ sortedDesc_perm l
  have hsorted : List.Sorted (· ≥ ·) (a :: b :: t) := hs ▸ sortedDesc_sorted l
  have hamem : a ∈ l := hperm.mem_iff.mp (List.mem_cons_self a _)
  have ha : a = listMax l := by
    refine (listMax_eq_of l a hamem ?_).symm
    intro x hx
    rcases List.mem_cons.mp (hperm.mem_iff.mpr hx) with h1 | h1
    · exact le_of_eq h1
    · exact List.rel_of_sorted_cons hsorted x h1
  have htail : List.Perm (b :: t) (l.erase a) :=
    (hperm.trans (List.perm_cons_erase hamem)).cons_inv
  have hbmem : b ∈ l.erase a := htail.mem_iff.mp (List.mem_cons_self b t)
  have hb : b = listMax (l.erase a) := by
    refine (listMax_eq_of (l.erase a) b hbmem ?_).symm
    intro x hx
    rcases List.mem_cons.mp (htail.mem_iff.mpr hx) with h1 | h1
    · exact le_of_eq h1
    · exact List.rel_of_sorted_cons hsorted.of_cons x h1
  exact ⟨a, b, t, hs, ha, ha ▸ hb⟩

lemma secondMax_eq (l : List ℝ) (h : 2 ≤ l.length) :
    secondMax l = listMax (l.erase (listMax l)) := by
  obtain ⟨a, b, t, hs, _, hb⟩ := sortedDesc_two l h
  unfold secondMax
  rw [if_pos (by omega : 1 < l.length), hs]
  simpa using hb

lemma secondMax_le_listMax (l : List ℝ) (h : 2 ≤ l.length) :
    secondMax l ≤ listMax l := by
  rw [secondMax_eq l h]
  have hne : l.erase (listMax l) ≠ [] := by
    have := List.length_erase_of_mem (listMax_mem l (by intro hl; rw [hl] at h; simp at h))
    intro hnil
    rw [hnil] at this
    simp at this
    omega
  refine listMax_le _ _ hne ?_
  intro x hx
  exact le_listMax l x (List.mem_of_mem_erase hx)

lemma scoreGap_nonneg (l : List ℝ) (h : 2 ≤ l.length) : 0 ≤ scoreGap l := by
  unfold scoreGap
  have := secondMax_le_listMax l h
  linarith

end BookScanner

namespace BookScanner

/-! ## Pointwise facts about the embedded numpy reductions -/

lemma dotL_nil : dotL [] [] = 0 := rfl

lemma dotL_cons (x y : ℝ) (u v : List ℝ) :
    dotL (x :: u) (y :: v) = x * y + dotL u v := by
  unfold dotL
  rw [List.zipWith_cons_cons, List.sum_cons]

lemma zipWith_sum_eq_sum_range (f : ℝ → ℝ → ℝ) (u v : List ℝ) (h : u.length = v.length) :
    (List.zipWith f u v).sum = ∑ i ∈ Finset.range u.length, f (u.getD i 0) (v.getD i 0) := by
  induction u generalizing v with
  | nil => simp
  | cons x xs ih =>
    cases v with
    | nil => simp at h
    | cons y ys =>
      have h2 : xs.length = ys.length := by simpa using h
      rw [List.zipWith_cons_cons, List.sum_cons, ih ys h2, List.length_cons,
        Finset.sum_range_succ']
      simp only [List.getD_cons_succ, List.getD_cons_zero]
      exact add_comm _ _

lemma dotL_eq_sum (u v : List ℝ) (h : u.length = v.length) :
    dotL u v = ∑ i ∈ Finset.range u.length, u.getD i 0 * v.getD i 0 :=
  zipWith_sum_eq_sum_range (· * ·) u v h

lemma dotL_self_eq_sum (u : List ℝ) :
    dotL u u = ∑ i ∈ Finset.range u.length, u.getD i 0 ^ 2 := by
  rw [dotL_eq_sum u u rfl]
  exact Finset.sum_congr rfl (fun i _ => (pow_two _).symm)

lemma dotL_self_nonneg (u : List ℝ) : 0 ≤ dotL u u := by
  rw [dotL_self_eq_sum]
  exact Finset.sum_nonneg (fun i _ => sq_nonneg _)

lemma dotL_self_pos (u : List ℝ) (h : ∃ x ∈ u, x ≠ 0) : 0 < dotL u u := by
  induction u with
  | nil => obtain ⟨x, hx, _⟩ := h; cases hx
  | cons y ys ih =>
    rw [dotL_cons]
    obtain ⟨x, hx, hx0⟩ := h
    rcases List.mem_cons.mp hx with h1 | h1
    · subst h1
      have h2 : 0 < x * x := mul_self_pos.mpr hx0
      have h3 : 0 ≤ dotL ys ys := dotL_self_nonneg ys
      linarith
    · have h2 : 0 < dotL ys ys := ih ⟨x, h1, hx0⟩
      have h3 : 0 ≤ y * y := mul_self_nonneg y
      linarith

end BookScanner

namespace BookScanner

lemma normL_nonneg (u : List ℝ) : 0 ≤ normL u := Real.sqrt_nonneg _

lemma normL_mul_self (u : List ℝ) : normL u * normL u = dotL u u :=
  Real.mul_self_sqrt (dotL_self_nonneg u)

lemma normL_pos (u : List ℝ) (h : ∃ x ∈ u, x ≠ 0) : 0 < normL u :=
  Real.sqrt_pos.mpr (dotL_self_pos u h)

/-- Cauchy-Schwarz for the embedded dot product and norms, upper side. -/
lemma dotL_le_norm_mul (u v : List ℝ) (h : u.length = v.length) :
    dotL u v ≤ normL u * normL v := by
  rw [dotL_eq_sum u v h]
  unfold normL
  rw [dotL_self_eq_sum u, dotL_self_eq_sum v, ← h]
  exact Real.sum_mul_le_sqrt_mul_sqrt (Finset.range u.length)
    (fun i => u.getD i 0) (fun i => v.getD i 0)

/-- Cauchy-Schwarz, lower side. -/
lemma neg_norm_mul_le_dotL (u v : List ℝ) (h : u.length = v.length) :
    -(normL u * normL v) ≤ dotL u v := by
  rw [dotL_eq_sum u v h]
  unfold normL
  rw [dotL_self_eq_sum u, dotL_self_eq_sum v, ← h]
  have hcs := Real.sum_mul_le_sqrt_mul_sqrt (Finset.range u.length)
    (fun i => -(u.getD i 0)) (fun i => v.getD i 0)
  simp only [neg_mul, Finset.sum_neg_distrib, neg_sq] at hcs
  linarith

lemma cosSim_le_one (u v : List ℝ) (h : u.length = v.length) : cosSim u v ≤ 1 := by
  unfold cosSim
  by_cases hz : normL u * normL v = 0
  · rw [if_pos hz]; norm_num
  · rw [if_neg hz]
    have hpos : 0 < normL u * normL v :=
      lt_of_le_of_ne (mul_nonneg (normL_nonneg u) (normL_nonneg v)) (Ne.symm hz)
    rw [div_le_one hpos]
    exact dotL_le_norm_mul u v h

lemma neg_one_le_cosSim (u v : List ℝ) (h : u.length = v.length) : -1 ≤ cosSim u v := by
  unfold cosSim
  by_cases hz : normL u * normL v = 0
  · rw [if_pos hz]; norm_num
  · rw [if_neg hz]
    have hpos : 0 < normL u * normL v :=
      lt_of_le_of_ne (mul_nonneg (normL_nonneg u) (normL_nonneg v)) (Ne.symm hz)
    rw [le_div_iff₀ hpos]
    have := neg_norm_mul_le_dotL u v h
    linarith

lemma cosSim_self (v : List ℝ) (h : ∃ x ∈ v, x ≠ 0) : cosSim v v = 1 := by
  unfold cosSim
  have hpos : 0 < normL v * normL v := mul_pos (normL_pos v h) (normL_pos v h)
  rw [if_neg (ne_of_gt hpos), normL_mul_self]
  exact div_self (ne_of_gt (dotL_self_pos v h))

lemma euclideanSim_pos (u v : List ℝ) : 0 < euclideanSim u v := by
  unfold euclideanSim
  have h1 : 0 ≤ normL (subL u v) := normL_nonneg _
  positivity

lemma euclideanSim_le_one (u v : List ℝ) : euclideanSim u v ≤ 1 := by
  unfold euclideanSim
  have h1 : 0 ≤ normL (subL u v) := normL_nonneg _
  rw [div_le_one (by linarith)]
  linarith

/-- Both scoring profiles stay at or above the -1.0 sentinel. -/
lemma simScore_ge_neg_one (c : Bool) (u v : List ℝ) (h : u.length = v.length) :
    -1 ≤ simScore c u v := by
  unfold simScore
  cases c with
  | false =>
    simpa using neg_one_le_cosSim u v h
  | true =>
    simp only [if_pos]
    have h1 := neg_one_le_cosSim u v h
    have h2 := euclideanSim_pos u v
    norm_num
    nlinarith

lemma simScore_le_one (c : Bool) (u v : List ℝ) (h : u.length = v.length) :
    simScore c u v ≤ 1 := by
  unfold simScore
  cases c with
  | false => simpa using cosSim_le_one u v h
  | true =>
    simp only [if_pos]
    have h1 := cosSim_le_one u v h
    have h2 := euclideanSim_le_one u v
    norm_num
    nlinarith

end BookScanner

namespace BookScanner

/-! ## Spec-side similarity notions (for the refinement claims) -/

/-- Modelled from the spec (glossary / §4.3): the dot product of two
equal-dimension embeddings, written as the indexed sum the spec's
mathematical reading denotes. -/
noncomputable def dot_product (u v : List ℝ) : ℝ :=
  ∑ i ∈ Finset.range u.length, u.getD i 0 * v.getD i 0

/-- Modelled from the spec (§4.3): a vector's Euclidean norm. -/
noncomputable def l2_norm (u : List ℝ) : ℝ :=
  Real.sqrt (∑ i ∈ Finset.range u.length, u.getD i 0 ^ 2)

/-- Modelled from the spec (§4.3): cosine similarity, defined as 0.0
when either vector's norm is zero. -/
noncomputable def cosine_similarity (u v : List ℝ) : ℝ :=
  if l2_norm u = 0 ∨ l2_norm v = 0 then 0
  else dot_product u v / (l2_norm u * l2_norm v)

/-- Modelled from the spec (§4.3): the L2 distance between two
equal-dimension embeddings. -/
noncomputable def euclidean_distance (u v : List ℝ) : ℝ :=
  Real.sqrt (∑ i ∈ Finset.range u.length, (u.getD i 0 - v.getD i 0) ^ 2)

lemma normL_eq_l2_norm (u : List ℝ) : normL u = l2_norm u := by
  unfold normL l2_norm
  rw [dotL_self_eq_sum]

lemma subL_length (u v : List ℝ) : (subL u v).length = min u.length v.length :=
  List.length_zipWith _ _ _

lemma getD_subL (u v : List ℝ) (i : ℕ) (hi : i < u.length) (hiv : i < v.length) :
    (subL u v).getD i 0 = u.getD i 0 - v.getD i 0 := by
  induction u generalizing v i with
  | nil => simp at hi
  | cons x xs ih =>
    cases v with
    | nil => simp at hiv
    | cons y ys =>
      cases i with
      | zero => rfl
      | succ j =>
        have h1 : j < xs.length := by simpa using hi
        have h2 : j < ys.length := by simpa using hiv
        show (subL xs ys).getD j 0 = xs.getD j 0 - ys.getD j 0
        exact ih ys j h1 h2

lemma normL_subL_eq_euclidean_distance (u v : List ℝ) (h : u.length = v.length) :
    normL (subL u v) = euclidean_distance u v := by
  unfold normL euclidean_distance
  rw [dotL_self_eq_sum]
  have hlen : (subL u v).length = u.length := by
    rw [subL_length, h, min_self]
  rw [hlen]
  congr 1
  refine Finset.sum_congr rfl (fun i hi => ?_)
  have hi1 : i < u.length := Finset.mem_range.mp hi
  rw [getD_subL u v i hi1 (h ▸ hi1)]

lemma cosSim_eq_cosine_similarity (u v : List ℝ) (h : u.length = v.length) :
    cosSim u v = cosine_similarity u v := by
  unfold cosSim cosine_similarity dot_product
  rw [← normL_eq_l2_norm, ← normL_eq_l2_norm, ← dotL_eq_sum u v h]
  have hiff : normL u * normL v = 0 ↔ normL u = 0 ∨ normL v = 0 := mul_eq_zero
  by_cases hz : normL u * normL v = 0
  · rw [if_pos hz, if_pos (hiff.mp hz)]
  · rw [if_neg hz, if_neg (fun hor => hz (hiff.mpr hor))]

end BookScanner

namespace BookScanner

/-! ## Scan-level corollaries -/

lemma scanTriples_mem (c : Bool) (f : ℕ → List ℝ) (db : List (ℕ × List ℝ))
    (t : ℕ × ℕ × ℝ) (ht : t ∈ scanTriples c f db) :
    ∃ a ∈ rotationAngles, ∃ p ∈ db, t = (a, p.1, simScore c (f a) p.2) := by
  unfold scanTriples at ht
  obtain ⟨a, ha, ht2⟩ := List.mem_flatMap.mp ht
  obtain ⟨p, hp, ht3⟩ := List.mem_map.mp ht2
  exact ⟨a, ha, p, hp, ht3.symm⟩

lemma scanTriples_ne_nil (c : Bool) (f : ℕ → List ℝ) (db : List (ℕ × List ℝ))
    (h : db ≠ []) : scanTriples c f db ≠ [] := by
  intro hnil
  have := scanTriples_length c f db
  rw [hnil] at this
  simp at this
  exact h this

lemma scanRotations_fst_score (c : Bool) (f : ℕ → List ℝ) (db : List (ℕ × List ℝ)) :
    (scanRotations c f db).1.score = maxFrom (-1) (scanTriples c f db) := by
  rw [scanRotations_eq_selFold, selFold_fst_score]
  rfl

lemma scanRotations_fst_cases (c : Bool) (f : ℕ → List ℝ) (db : List (ℕ × List ℝ)) :
    (scanRotations c f db).1 = initBest ∨
      ∃ t ∈ scanTriples c f db, (scanRotations c f db).1 =
        { book_id := some t.2.1, score := t.2.2, rotation := t.1 } := by
  rw [scanRotations_eq_selFold]
  exact selFold_fst_cases (scanTriples c f db) (initBest, [])

lemma scanRotations_none_score (c : Bool) (f : ℕ → List ℝ) (db : List (ℕ × List ℝ))
    (h : (scanRotations c f db).1.book_id = none) :
    (scanRotations c f db).1.score = -1 := by
  rcases scanRotations_fst_cases c f db with h1 | ⟨t, _, h1⟩
  · rw [h1]; rfl
  · rw [h1] at h; cases h

lemma scanRotations_some_mem (c : Bool) (f : ℕ → List ℝ) (db : List (ℕ × List ℝ))
    (i : ℕ) (h : (scanRotations c f db).1.book_id = some i) :
    ∃ p ∈ db, p.1 = i := by
  rcases scanRotations_fst_cases c f db with h1 | ⟨t, ht, h1⟩
  · rw [h1] at h; cases h
  · rw [h1] at h
    obtain ⟨a, _, p, hp, hteq⟩ := scanTriples_mem c f db t ht
    refine ⟨p, hp, ?_⟩
    have : t.2.1 = p.1 := by rw [hteq]
    rw [← this]
    exact (Option.some.injEq _ _).mp h

/-- Every score the scan accumulates is a `simScore` of a rotation
embedding against a stored vector. -/
lemma scanRotations_snd_mem (c : Bool) (f : ℕ → List ℝ) (db : List (ℕ × List ℝ))
    (s : ℝ) (hs : s ∈ (scanRotations c f db).2) :
    ∃ a ∈ rotationAngles, ∃ p ∈ db, s = simScore c (f a) p.2 := by
  rw [scanRotations_snd] at hs
  obtain ⟨t, ht, hts⟩ := List.mem_map.mp hs
  obtain ⟨a, ha, p, hp, hteq⟩ := scanTriples_mem c f db t ht
  refine ⟨a, ha, p, hp, ?_⟩
  rw [← hts, hteq]

/-- With equal-dimension embeddings every accumulated score is ≥ -1. -/
lemma scanRotations_snd_ge (c : Bool) (f : ℕ → List ℝ) (db : List (ℕ × List ℝ))
    (hdim : ∀ a ∈ rotationAngles, ∀ p ∈ db, (f a).length = p.2.length)
    (s : ℝ) (hs : s ∈ (scanRotations c f db).2) : -1 ≤ s := by
  obtain ⟨a, ha, p, hp, hseq⟩ := scanRotations_snd_mem c f db s hs
  rw [hseq]
  exact simScore_ge_neg_one c (f a) p.2 (hdim a ha p hp)

/-- With a non-empty store the tracked best score is the maximum of the
accumulated score list, provided the dimensions match. -/
lemma scanRotations_best_eq_listMax (c : Bool) (f : ℕ → List ℝ)
    (db : List (ℕ × List ℝ)) (hdb : db ≠ [])
    (hdim : ∀ a ∈ rotationAngles, ∀ p ∈ db, (f a).length = p.2.length) :
    (scanRotations c f db).1.score = listMax (scanRotations c f db).2 := by
  rw [scanRotations_fst_score,
    maxFrom_eq_max_listMax (-1) _ (scanTriples_ne_nil c f db hdb), ← scanRotations_snd]
  have hne : (scanRotations c f db).2 ≠ [] := by
    rw [scanRotations_snd]
    simpa using scanTriples_ne_nil c f db hdb
  refine max_eq_right ?_
  have hmem := listMax_mem _ hne
  exact scanRotations_snd_ge c f db hdim _ hmem

/-! ## Classification-level corollaries -/

lemma bidTruthy_iff (o : Option ℕ) :
    bidTruthy o = true ↔ ∃ i, o = some i ∧ i ≠ 0 := by
  cases o with
  | none => simp [bidTruthy]
  | some i => simp [bidTruthy]

lemma classifyScores_ne_unknown (c : Bool) (best : Best) (scores : List ℝ)
    (h : classifyScores c best scores ≠ ResultType.unknown_book) :
    scores ≠ [] ∧ ∃ i, best.book_id = some i ∧ i ≠ 0 := by
  unfold classifyScores at h
  by_cases h0 : scores = []
  · rw [if_pos h0] at h; exact absurd rfl h
  · refine ⟨h0, ?_⟩
    rw [if_neg h0] at h
    by_cases h1 : bidTruthy best.book_id = true
    · exact (bidTruthy_iff best.book_id).mp h1
    · exfalso
      apply h
      rw [if_neg, if_neg, if_neg]
      · intro hand; exact h1 hand.1
      · intro hand; exact h1 hand.1
      · intro hand; exact h1 hand.1

end BookScanner

namespace BookScanner

lemma simScore_false (u v : List ℝ) : simScore false u v = cosSim u v := by
  simp [simScore]

lemma simScore_true (u v : List ℝ) :
    simScore true u v = 0.7 * cosSim u v + 0.3 * euclideanSim u v := by
  simp [simScore]

/-- C5: for every pair of equal-dimension embeddings scored under the
cartoon profile, the score equals
0.7 * cosine_similarity + 0.3 * (1 / (1 + euclidean_distance)), where
euclidean_distance is the L2 distance between the two embeddings and the
cosine term is 0.0 when either vector's norm is zero (the zero-guard is
built into `cosine_similarity`). -/
theorem claim5_cartoon_fused_score (u v : List ℝ) (h : u.length = v.length) :
    simScore true u v =
      0.7 * cosine_similarity u v + 0.3 * (1 / (1 + euclidean_distance u v)) := by
  rw [simScore_true, cosSim_eq_cosine_similarity u v h]
  unfold euclideanSim
  rw [normL_subL_eq_euclidean_distance u v h]

/-- Witness for C5 at the concrete equal-dimension pair [1], [1]. -/
theorem claim5_cartoon_fused_score_witness :
    ([(1 : ℝ)].length = [(1 : ℝ)].length) ∧
      simScore true [(1 : ℝ)] [(1 : ℝ)] =
        0.7 * cosine_similarity [(1 : ℝ)] [(1 : ℝ)] +
          0.3 * (1 / (1 + euclidean_distance [(1 : ℝ)] [(1 : ℝ)])) :=
  ⟨rfl, claim5_cartoon_fused_score [(1 : ℝ)] [(1 : ℝ)] rfl⟩

/-- C6: whenever either vector has zero Euclidean norm the
standard-profile score is 0.0; the guard on the norm product fires
exactly in that case, so the division is never taken there (in the real
idealisation there is no NaN to propagate; the guard is what prevents
the 0/0). -/
theorem claim6_zero_norm_guard (u v : List ℝ) (h : normL u = 0 ∨ normL v = 0) :
    (normL u * normL v = 0 ↔ normL u = 0 ∨ normL v = 0) ∧
      simScore false u v = 0 := by
  refine ⟨mul_eq_zero, ?_⟩
  rw [simScore_false]
  unfold cosSim
  rw [if_pos (mul_eq_zero.mpr h)]

/-- Witness for C6 at the zero vector [0] against [1]. -/
theorem claim6_zero_norm_guard_witness :
    (normL [(0 : ℝ)] = 0 ∨ normL [(1 : ℝ)] = 0) ∧
      ((normL [(0 : ℝ)] * normL [(1 : ℝ)] = 0 ↔
          normL [(0 : ℝ)] = 0 ∨ normL [(1 : ℝ)] = 0) ∧
        simScore false [(0 : ℝ)] [(1 : ℝ)] = 0) :=
  ⟨Or.inl (by simp [normL, dotL]),
    claim6_zero_norm_guard [(0 : ℝ)] [(1 : ℝ)] (Or.inl (by simp [normL, dotL]))⟩

/-- C7: the standard-profile score of equal-dimension embeddings lies in
[-1, 1], and the score of any nonzero vector against itself is exactly
1.0. -/
theorem claim7_standard_score_bounds (u v w : List ℝ) (h : u.length = v.length)
    (hw : ∃ x ∈ w, x ≠ 0) :
    (-1 ≤ simScore false u v ∧ simScore false u v ≤ 1) ∧
      simScore false w w = 1 := by
  rw [simScore_false, simScore_false]
  exact ⟨⟨neg_one_le_cosSim u v h, cosSim_le_one u v h⟩, cosSim_self w hw⟩

/-- Witness for C7 at u = v = w = [1]. -/
theorem claim7_standard_score_bounds_witness :
    (([(1 : ℝ)].length = [(1 : ℝ)].length) ∧ (∃ x ∈ [(1 : ℝ)], x ≠ 0)) ∧
      ((-1 ≤ simScore false [(1 : ℝ)] [(1 : ℝ)] ∧
          simScore false [(1 : ℝ)] [(1 : ℝ)] ≤ 1) ∧
        simScore false [(1 : ℝ)] [(1 : ℝ)] = 1) :=
  ⟨⟨rfl, ⟨1, by simp, one_ne_zero⟩⟩,
    claim7_standard_score_bounds [(1 : ℝ)] [(1 : ℝ)] [(1 : ℝ)] rfl
      ⟨1, by simp, one_ne_zero⟩⟩

/-- C9: the style classifier is a total Bool-valued function (it never
raises); on any image with pixels it returns exactly the comparison
"variance across the three per-channel means exceeds 500", and on the
degenerate/failed analysis it returns false.  (Python exceptions are
not representable here: the `except` branch and numpy's NaN-on-empty
both collapse to the second clause.) -/
theorem claim9_style_classifier (img : List (ℝ × ℝ × ℝ)) :
    (img ≠ [] → (detect_cartoon_book_simple img = true ↔ 500 < colorVariance img)) ∧
      (img = [] → detect_cartoon_book_simple img = false) := by
  constructor
  · intro hne
    unfold detect_cartoon_book_simple
    rw [if_neg hne]
    by_cases hv : 500 < colorVariance img
    · rw [if_pos hv]
      simp [hv]
    · rw [if_neg hv]
      simp [hv]
  · intro he
    unfold detect_cartoon_book_simple
    rw [if_pos he]

/-- Witness for C9: a saturated red image is classified as cartoon. -/
theorem claim9_style_classifier_witness :
    detect_cartoon_book_simple [((255 : ℝ), (0 : ℝ), (0 : ℝ))] = true :=
  ((claim9_style_classifier [((255 : ℝ), (0 : ℝ), (0 : ℝ))]).1 (by simp)).mpr
    (by norm_num [colorVariance, channelMean, var3])

end BookScanner

namespace BookScanner

/-- C3: for every score list the scan produces, the computed gap is the
largest score minus the second-largest score as soon as at least two
scores exist; a scan list with fewer than two scores is necessarily
empty (the list has 4×N entries), in which case the code computes no gap
at all — the guarded branch is skipped and downstream reporting
substitutes 0, which is the value of the embedded `scoreGap` there; and
the gap is nonnegative on every non-empty scan list. -/
theorem claim3_score_gap (c : Bool) (f : ℕ → List ℝ) (db : List (ℕ × List ℝ)) :
    (2 ≤ (scanRotations c f db).2.length →
        scoreGap (scanRotations c f db).2 =
          listMax (scanRotations c f db).2 -
            listMax ((scanRotations c f db).2.erase
              (listMax (scanRotations c f db).2))) ∧
      ((scanRotations c f db).2.length < 2 →
        (scanRotations c f db).2 = [] ∧ scoreGap (scanRotations c f db).2 = 0) ∧
      ((scanRotations c f db).2 ≠ [] → 0 ≤ scoreGap (scanRotations c f db).2) := by
  have hlen : (scanRotations c f db).2.length = 4 * db.length :=
    scanRotations_snd_length c f db
  refine ⟨?_, ?_, ?_⟩
  · intro h2
    unfold scoreGap
    rw [secondMax_eq _ h2]
  · intro hlt
    have hdb0 : db.length = 0 := by omega
    have hnil : (scanRotations c f db).2 = [] := by
      have : (scanRotations c f db).2.length = 0 := by omega
      exact List.length_eq_zero.mp this
    refine ⟨hnil, ?_⟩
    rw [hnil]
    simp [scoreGap, listMax, secondMax]
  · intro hne
    have h1 : 1 ≤ db.length := by
      rcases Nat.eq_zero_or_pos db.length with h0 | h0
      · exfalso
        apply hne
        have : (scanRotations c f db).2.length = 0 := by omega
        exact List.length_eq_zero.mp this
      · exact h0
    exact scoreGap_nonneg _ (by omega)

/-- Witness for C3 on a one-record store and a constant embedding
provider: the scan produces 4 scores, so both the two-score clause and
the nonnegativity clause fire. -/
theorem claim3_score_gap_witness :
    (2 ≤ (scanRotations false (fun _ => [(1 : ℝ)]) [(1, [(1 : ℝ)])]).2.length) ∧
      scoreGap (scanRotations false (fun _ => [(1 : ℝ)]) [(1, [(1 : ℝ)])]).2 =
        listMax (scanRotations false (fun _ => [(1 : ℝ)]) [(1, [(1 : ℝ)])]).2 -
          listMax ((scanRotations false (fun _ => [(1 : ℝ)]) [(1, [(1 : ℝ)])]).2.erase
            (listMax (scanRotations false (fun _ => [(1 : ℝ)]) [(1, [(1 : ℝ)])]).2)) :=
  ⟨by simp [scanRotations_snd_length],
    (claim3_score_gap false (fun _ => [(1 : ℝ)]) [(1, [(1 : ℝ)])]).1
      (by simp [scanRotations_snd_length])⟩

/-- C10: loop invariant of the scan.  For a non-empty candidate store
with matching dimensions (which makes every computed score ≥ -1.0, the
initial sentinel), the tracked best score after the full scan equals the
maximum of all 4×N computed scores; and whenever some score strictly
exceeds the sentinel, the tracked identifier and rotation are those of
the unique scanned pair whose score strictly exceeds every
earlier-scanned score and equals the global maximum. -/
theorem claim10_scan_invariant (c : Bool) (f : ℕ → List ℝ) (db : List (ℕ × List ℝ))
    (hdb : db ≠ [])
    (hdim : ∀ a ∈ rotationAngles, ∀ p ∈ db, (f a).length = p.2.length) :
    (∀ s ∈ (scanRotations c f db).2, -1 ≤ s) ∧
      (scanRotations c f db).1.score = listMax (scanRotations c f db).2 ∧
      ((∃ s ∈ (scanRotations c f db).2, -1 < s) →
        ∃ pre t post, scanTriples c f db = pre ++ t :: post ∧
          (∀ u ∈ pre, u.2.2 < t.2.2) ∧
          t.2.2 = listMax (scanRotations c f db).2 ∧
          (scanRotations c f db).1 =
            { book_id := some t.2.1, score := t.2.2, rotation := t.1 }) := by
  refine ⟨fun s hs => scanRotations_snd_ge c f db hdim s hs,
    scanRotations_best_eq_listMax c f db hdb hdim, ?_⟩
  rintro ⟨s, hs, hlt⟩
  have hs2 := hs
  rw [scanRotations_snd] at hs2
  obtain ⟨t0, ht0, hts⟩ := List.mem_map.mp hs2
  have hmax : (-1 : ℝ) < maxFrom (-1) (scanTriples c f db) :=
    lt_of_lt_of_le hlt (hts ▸ mem_le_maxFrom (-1) _ t0 ht0)
  have hinit : ((initBest, ([] : List ℝ)).1.score) = -1 := rfl
  obtain ⟨t, htf, htb⟩ := selFold_first_at_max (scanTriples c f db) (initBest, [])
    (by rw [hinit]; exact hmax)
  rw [hinit] at htf
  obtain ⟨htM, pre, post, hsplit, hpre⟩ :=
    firstAtMax_decomp _ (scanTriples c f db) t htf
  have hbestscore : (scanRotations c f db).1.score = maxFrom (-1) (scanTriples c f db) :=
    scanRotations_fst_score c f db
  refine ⟨pre, t, post, hsplit, ?_, ?_, ?_⟩
  · intro u hu
    have humem : u ∈ scanTriples c f db := by
      rw [hsplit]
      exact List.mem_append_left _ hu
    have hle : u.2.2 ≤ maxFrom (-1) (scanTriples c f db) :=
      mem_le_maxFrom (-1) _ u humem
    rw [htM]
    exact lt_of_le_of_ne hle (hpre u hu)
  · rw [htM, ← hbestscore]
    exact scanRotations_best_eq_listMax c f db hdb hdim
  · rw [scanRotations_eq_selFold]
    exact htb

/-- Witness for C10 on a one-record store with an exactly matching
query embedding. -/
theorem claim10_scan_invariant_witness :
    (([((1 : ℕ), [(1 : ℝ)])] : List (ℕ × List ℝ)) ≠ []) ∧
      ((∀ s ∈ (scanRotations false (fun _ => [(1 : ℝ)]) [(1, [(1 : ℝ)])]).2, -1 ≤ s) ∧
        (scanRotations false (fun _ => [(1 : ℝ)]) [(1, [(1 : ℝ)])]).1.score =
          listMax (scanRotations false (fun _ => [(1 : ℝ)]) [(1, [(1 : ℝ)])]).2 ∧
        ((∃ s ∈ (scanRotations false (fun _ => [(1 : ℝ)]) [(1, [(1 : ℝ)])]).2, -1 < s) →
          ∃ pre t post,
            scanTriples false (fun _ => [(1 : ℝ)]) [(1, [(1 : ℝ)])] = pre ++ t :: post ∧
            (∀ u ∈ pre, u.2.2 < t.2.2) ∧
            t.2.2 = listMax (scanRotations false (fun _ => [(1 : ℝ)]) [(1, [(1 : ℝ)])]).2 ∧
            (scanRotations false (fun _ => [(1 : ℝ)]) [(1, [(1 : ℝ)])]).1 =
              { book_id := some t.2.1, score := t.2.2, rotation := t.1 })) :=
  ⟨by simp,
    claim10_scan_invariant false (fun _ => [(1 : ℝ)]) [(1, [(1 : ℝ)])] (by simp)
      (by
        intro a ha p hp
        rw [List.mem_singleton] at hp
        subst hp
        rfl)⟩

end BookScanner

namespace BookScanner

lemma simScore_one_negone : simScore false [(1 : ℝ)] [(-1 : ℝ)] = -1 := by
  rw [simScore_false]
  unfold cosSim normL dotL
  norm_num [Real.sqrt_one]

lemma simScore_one_one : simScore false [(1 : ℝ)] [(1 : ℝ)] = 1 := by
  rw [simScore_false]
  unfold cosSim normL dotL
  norm_num [Real.sqrt_one]

/-- Counterexample to C4 as stated: with the standard profile and two
stored vectors antipodal to every rotation embedding, all 8 scanned
pairs attain the same maximal score -1.0, yet the selector returns no
identifier at all (book_id stays None) because the strict comparison
against the -1.0 sentinel never fires; in particular the returned
identifier is not that of the first-encountered maximal pair. -/
theorem claim4_tie_break_counterexample :
    (scanRotations false (fun _ => [(1 : ℝ)]) [(1, [(-1 : ℝ)]), (2, [(-1 : ℝ)])]).2 =
        [-1, -1, -1, -1, -1, -1, -1, -1] ∧
      (scanRotations false (fun _ => [(1 : ℝ)]) [(1, [(-1 : ℝ)]), (2, [(-1 : ℝ)])]).1.book_id
        = none := by
  constructor
  · rw [scanRotations_snd]
    unfold scanTriples rotationAngles
    simp [simScore_one_negone]
  · unfold scanRotations scanCandidates rotationAngles initBest
    simp [simScore_one_negone]

end BookScanner

namespace BookScanner

/-- C4 as amended: the selector updates the running best only on a
strictly greater score, so provided some scanned score strictly exceeds
the -1.0 sentinel, the identifier and rotation returned are those of the
first triple (in rotation order 0, 90, 180, 270, then store order)
attaining the maximal score.  (The amendment excludes only the case in
which every score equals the sentinel exactly, where no update ever
fires and book_id stays None.) -/
theorem claim4_tie_break_amended (c : Bool) (f : ℕ → List ℝ)
    (db : List (ℕ × List ℝ))
    (h : ∃ s ∈ (scanRotations c f db).2, -1 < s) :
    ∃ t, firstAtMax (maxFrom (-1) (scanTriples c f db)) (scanTriples c f db) = some t ∧
      (scanRotations c f db).1 =
        { book_id := some t.2.1, score := t.2.2, rotation := t.1 } := by
  obtain ⟨s, hs, hlt⟩ := h
  rw [scanRotations_snd] at hs
  obtain ⟨t0, ht0, hts⟩ := List.mem_map.mp hs
  have hmax : (-1 : ℝ) < maxFrom (-1) (scanTriples c f db) :=
    lt_of_lt_of_le hlt (hts ▸ mem_le_maxFrom (-1) _ t0 ht0)
  have hinit : ((initBest, ([] : List ℝ)).1.score) = -1 := rfl
  obtain ⟨t, htf, htb⟩ := selFold_first_at_max (scanTriples c f db) (initBest, [])
    (by rw [hinit]; exact hmax)
  rw [hinit] at htf
  refine ⟨t, htf, ?_⟩
  rw [scanRotations_eq_selFold]
  exact htb

/-- Witness for the amended C4: a one-record store scoring 1 at every
rotation; the returned best is the pair scanned first (rotation 0). -/
theorem claim4_tie_break_amended_witness :
    (∃ s ∈ (scanRotations false (fun _ => [(1 : ℝ)]) [(2, [(1 : ℝ)])]).2, -1 < s) ∧
      ∃ t, firstAtMax
          (maxFrom (-1) (scanTriples false (fun _ => [(1 : ℝ)]) [(2, [(1 : ℝ)])]))
          (scanTriples false (fun _ => [(1 : ℝ)]) [(2, [(1 : ℝ)])]) = some t ∧
        (scanRotations false (fun _ => [(1 : ℝ)]) [(2, [(1 : ℝ)])]).1 =
          { book_id := some t.2.1, score := t.2.2, rotation := t.1 } := by
  have hmem : ∃ s ∈ (scanRotations false (fun _ => [(1 : ℝ)]) [(2, [(1 : ℝ)])]).2,
      (-1 : ℝ) < s := by
    refine ⟨1, ?_, by norm_num⟩
    rw [scanRotations_snd]
    unfold scanTriples rotationAngles
    simp [simScore_one_one]
  exact ⟨hmem, claim4_tie_break_amended false (fun _ => [(1 : ℝ)]) [(2, [(1 : ℝ)])] hmem⟩

end BookScanner

namespace BookScanner

lemma high_threshold_gt_neg_one (c : Bool) :
    ¬ HIGH_CONFIDENCE_THRESHOLD c ≤ (-1 : ℝ) := by
  cases c <;> norm_num [HIGH_CONFIDENCE_THRESHOLD]

lemma low_threshold_gt_neg_one (c : Bool) :
    ¬ LOW_CONFIDENCE_THRESHOLD c ≤ (-1 : ℝ) := by
  cases c <;> norm_num [LOW_CONFIDENCE_THRESHOLD]

/-- C1: provided the store carries the database's positive primary keys
(no stored identifier is 0, the one Python-falsy integer), the code's
classifier agrees with the spec's five-rule first-match-wins cascade
over (candidates-exist, best score, gap, style) everywhere — the extra
`best["book_id"]` truthiness conjuncts in the code never change the
outcome, because a falsy best id forces the sentinel score -1.0, which
already fails every threshold. -/
theorem claim1_classification_cascade (c : Bool) (f : ℕ → List ℝ)
    (db : List (ℕ × List ℝ)) (hids : ∀ p ∈ db, p.1 ≠ 0) :
    classifyScores c (scanRotations c f db).1 (scanRotations c f db).2 =
      specClassifyCascade (!db.isEmpty) (scanRotations c f db).1.score
        (scoreGap (scanRotations c f db).2) c := by
  cases db with
  | nil =>
    have hnil : (scanRotations c f []).2 = [] := by
      rw [scanRotations_snd]
      unfold scanTriples rotationAngles
      simp
    rw [hnil]
    unfold classifyScores specClassifyCascade
    rw [if_pos rfl, if_pos (by simp)]
  | cons d ds =>
    have hne : (scanRotations c f (d :: ds)).2 ≠ [] := by
      intro hnil
      have hlen := scanRotations_snd_length c f (d :: ds)
      rw [hnil] at hlen
      simp at hlen
    by_cases ht : bidTruthy (scanRotations c f (d :: ds)).1.book_id = true
    · unfold classifyScores specClassifyCascade
      rw [if_neg hne, if_neg (by simp : ¬(!(d :: ds).isEmpty) = false)]
      simp only [ht, true_and]
    · have hnone : (scanRotations c f (d :: ds)).1.book_id = none := by
        cases ho : (scanRotations c f (d :: ds)).1.book_id with
        | none => rfl
        | some i =>
          exfalso
          obtain ⟨p, hp, hpi⟩ := scanRotations_some_mem c f (d :: ds) i ho
          have hi0 : i ≠ 0 := hpi ▸ hids p hp
          rw [ho] at ht
          simp [bidTruthy, hi0] at ht
      have hs : (scanRotations c f (d :: ds)).1.score = -1 :=
        scanRotations_none_score c f (d :: ds) hnone
      have hbid : bidTruthy (scanRotations c f (d :: ds)).1.book_id = false := by
        rw [hnone]
        rfl
      unfold classifyScores specClassifyCascade
      rw [if_neg hne, if_neg (by simp : ¬(!(d :: ds).isEmpty) = false), hs]
      simp only [hbid, Bool.false_eq_true, false_and, if_false,
        high_threshold_gt_neg_one c, low_threshold_gt_neg_one c]

/-- Witness for C1 on a one-record store with identifier 1. -/
theorem claim1_classification_cascade_witness :
    (∀ p ∈ [((1 : ℕ), [(1 : ℝ)])], p.1 ≠ 0) ∧
      classifyScores false
          (scanRotations false (fun _ => [(1 : ℝ)]) [(1, [(1 : ℝ)])]).1
          (scanRotations false (fun _ => [(1 : ℝ)]) [(1, [(1 : ℝ)])]).2 =
        specClassifyCascade (!([((1 : ℕ), [(1 : ℝ)])] : List (ℕ × List ℝ)).isEmpty)
          (scanRotations false (fun _ => [(1 : ℝ)]) [(1, [(1 : ℝ)])]).1.score
          (scoreGap (scanRotations false (fun _ => [(1 : ℝ)]) [(1, [(1 : ℝ)])]).2)
          false :=
  ⟨by simp, claim1_classification_cascade false (fun _ => [(1 : ℝ)]) [(1, [(1 : ℝ)])]
    (by simp)⟩

end BookScanner

namespace BookScanner

/-- Counterexample to C2 as stated: with zero records in the candidate
store, the matching operation returns the empty-payload error convention
with the message 資料庫中沒有書籍記錄 ("no book records in the
database") — the caller maps this to a failure response — and not the
unknown-book outcome with its register-as-new-book action. -/
theorem claim2_empty_store_counterexample :
    identify_book_with_rotation_enhanced false (fun _ => [(1 : ℝ)]) [] [] =
        IdentifyResult.err "資料庫中沒有書籍記錄" ∧
      isUnknownBookResult
        (identify_book_with_rotation_enhanced false (fun _ => [(1 : ℝ)]) [] []) = false ∧
      isErrResult
        (identify_book_with_rotation_enhanced false (fun _ => [(1 : ℝ)]) [] []) = true := by
  have h : identify_book_with_rotation_enhanced false (fun _ => [(1 : ℝ)]) [] [] =
      IdentifyResult.err "資料庫中沒有書籍記錄" := by
    unfold identify_book_with_rotation_enhanced
    rw [if_pos rfl]
  exact ⟨h, by rw [h]; rfl, by rw [h]; rfl⟩

/-- C2 as amended: with zero records in the candidate store the
operation short-circuits before style thresholds, scanning or
classification are ever consulted, and — for every style flag, embedding
provider and metadata table — returns the error result
err 資料庫中沒有書籍記錄 (empty payload plus message), not the
unknown-book outcome. -/
theorem claim2_empty_store_amended (c : Bool) (f : ℕ → List ℝ)
    (books : List (ℕ × BookRow)) :
    identify_book_with_rotation_enhanced c f [] books =
        IdentifyResult.err "資料庫中沒有書籍記錄" ∧
      isUnknownBookResult (identify_book_with_rotation_enhanced c f [] books) = false := by
  have h : identify_book_with_rotation_enhanced c f [] books =
      IdentifyResult.err "資料庫中沒有書籍記錄" := by
    unfold identify_book_with_rotation_enhanced
    rw [if_pos rfl]
  exact ⟨h, by rw [h]; rfl⟩

/-- C8: the generic message at line 673 (未找到匹配的書籍) is produced
exactly when a match tier was classified for a winning identifier that
has an embedding row but no row in the books table — a distinct,
identifiable error kind within the engine — and in that situation the
result is that error, never the unknown-book outcome. -/
theorem claim8_metadata_inconsistency (c : Bool) (f : ℕ → List ℝ)
    (db : List (ℕ × List ℝ)) (books : List (ℕ × BookRow)) :
    (identify_book_with_rotation_enhanced c f db books =
        IdentifyResult.err "未找到匹配的書籍" ↔
      db ≠ [] ∧
        classifyScores c (scanRotations c f db).1 (scanRotations c f db).2 ≠
          ResultType.unknown_book ∧
        ∃ bid, (scanRotations c f db).1.book_id = some bid ∧
          lookupBook books bid = none) ∧
      ((db ≠ [] ∧
          classifyScores c (scanRotations c f db).1 (scanRotations c f db).2 ≠
            ResultType.unknown_book ∧
          ∃ bid, (scanRotations c f db).1.book_id = some bid ∧
            lookupBook books bid = none) →
        isUnknownBookResult
          (identify_book_with_rotation_enhanced c f db books) = false) := by
  have hiff : identify_book_with_rotation_enhanced c f db books =
      IdentifyResult.err "未找到匹配的書籍" ↔
      db ≠ [] ∧
        classifyScores c (scanRotations c f db).1 (scanRotations c f db).2 ≠
          ResultType.unknown_book ∧
        ∃ bid, (scanRotations c f db).1.book_id = some bid ∧
          lookupBook books bid = none := by
    by_cases hdb : db = []
    · subst hdb
      have h0 : identify_book_with_rotation_enhanced c f [] books =
          IdentifyResult.err "資料庫中沒有書籍記錄" := by
        unfold identify_book_with_rotation_enhanced
        rw [if_pos rfl]
      rw [h0]
      constructor
      · intro h
        exact absurd ((IdentifyResult.err.injEq _ _).mp h) (by decide)
      · rintro ⟨h1, -, -⟩
        exact absurd rfl h1
    · unfold identify_book_with_rotation_enhanced
      rw [if_neg hdb]
      by_cases hrt : classifyScores c (scanRotations c f db).1
          (scanRotations c f db).2 = ResultType.unknown_book
      · rw [if_pos hrt]
        constructor
        · intro h
          cases h
        · rintro ⟨-, h2, -⟩
          exact absurd hrt h2
      · rw [if_neg hrt]
        cases hbid : (scanRotations c f db).1.book_id with
        | none =>
          obtain ⟨-, i, hsome, -⟩ := classifyScores_ne_unknown c _ _ hrt
          rw [hbid] at hsome
          cases hsome
        | some bid =>
          cases hlook : lookupBook books bid with
          | none =>
            constructor
            · intro _
              exact ⟨hdb, hrt, bid, rfl, hlook⟩
            · intro _
              simp only [hlook]
          | some row =>
            constructor
            · intro h
              simp only [hlook] at h
              by_cases hlow : classifyScores c (scanRotations c f db).1
                  (scanRotations c f db).2 = ResultType.low_confidence_similar
              · rw [if_pos hlow] at h
                cases h
              · rw [if_neg hlow] at h
                cases h
            · rintro ⟨-, -, bid2, hbid2, hlook2⟩
              have hb : bid = bid2 := (Option.some.injEq _ _).mp hbid2
              rw [← hb, hlook] at hlook2
              cases hlook2
  refine ⟨hiff, ?_⟩
  intro hcond
  rw [hiff.mpr hcond]
  rfl

end BookScanner

namespace BookScanner

lemma scan_one_record_eval :
    scanRotations false (fun _ => [(1 : ℝ)]) [(1, [(1 : ℝ)])] =
      ({ book_id := some 1, score := 1, rotation := 0 }, [1, 1, 1, 1]) := by
  unfold scanRotations scanCandidates rotationAngles initBest
  simp only [List.foldl_cons, List.foldl_nil, simScore_one_one]
  norm_num

lemma classify_one_record_eval :
    classifyScores false { book_id := some 1, score := 1, rotation := 0 }
      [(1 : ℝ), 1, 1, 1] = ResultType.low_confidence_similar := by
  have hgap : scoreGap [(1 : ℝ), 1, 1, 1] = 0 := by
    unfold scoreGap listMax secondMax sortedDesc
    norm_num [List.insertionSort, List.orderedInsert]
  unfold classifyScores
  rw [if_neg (by simp : ¬([(1 : ℝ), 1, 1, 1] = [])), hgap]
  norm_num [bidTruthy, HIGH_CONFIDENCE_THRESHOLD, LOW_CONFIDENCE_THRESHOLD,
    MIN_GAP_REQUIRED]

/-- Witness for C8: a store holding identifier 1 whose metadata table is
empty; the scan classifies a match tier and the lookup misses, so the
engine returns the distinct error. -/
theorem claim8_metadata_inconsistency_witness :
    identify_book_with_rotation_enhanced false (fun _ => [(1 : ℝ)]) [(1, [(1 : ℝ)])] [] =
      IdentifyResult.err "未找到匹配的書籍" :=
  (claim8_metadata_inconsistency false (fun _ => [(1 : ℝ)]) [(1, [(1 : ℝ)])] []).1.mpr
    ⟨by simp,
      by
        simp only [scan_one_record_eval]
        rw [classify_one_record_eval]
        decide,
      1,
      by simp only [scan_one_record_eval],
      rfl⟩

end BookScanner
